import Mathlib

/-!
Shallow embedding of the audirust playback and visualization engine.

The Rust sources exist in two generations: a monolithic `AudioPlayer`
(src/audio_player.rs, duplicated verbatim inside src/main.rs) and a modular
one (src/audio_player/mod.rs with effects.rs and visualization.rs).  The
arithmetic of the effect mutators and of the visualizer is identical in both
generations; the embedding below follows the cited files.

Modelling conventions:
* `f32`/`f64` values are embedded as exact rationals (`ℚ`); the clamping
  operations `min`/`max` and the literal constants translate directly.
* `u32` is embedded as `Nat` (Rust's `u32` subtraction and Lean's `Nat`
  subtraction agree on every reachable cutoff value, all of which are
  at least 500).
* `Instant` timestamps become rational numbers; `t.elapsed()` at wall time
  `now` becomes `now - t`.
* The file system, the audio device and rodio decoding are modelled by an
  oracle `AudioEnv` saying which opens/decodes/sink creations succeed.
* A rodio `Sink` is modelled by the queue of mix graphs appended to it and
  not yet drained; `sink.empty()` is emptiness of that queue.  Each session
  additionally records (as ghost data, unused by the dynamics) the source
  path the `play_sound` call that created it was given.
* `f64::sin` and the wall clock used by the synthetic waveform are abstract
  parameters (`sinO`, `time`): no claim depends on properties of sine.
-/

/-- Effect parameters, from src/audio_player/effects.rs (struct EffectManager);
the monolithic AudioPlayer carries the same five fields inline. -/
structure EffectManager where
  playback_speed : ℚ
  volume : ℚ
  lowpass_cutoff : Nat
  reverb_enabled : Bool
  reverb_delay : ℚ
deriving DecidableEq

namespace EffectManager

/-- EffectManager::new (effects.rs lines 11-19). -/
def new : EffectManager :=
  { playback_speed := 1
    volume := 1
    lowpass_cutoff := 20000
    reverb_enabled := false
    reverb_delay := 6/100 }

/-- EffectManager::change_volume (effects.rs lines 26-32):
increase adds 0.1 then clamps at 2.0 with `min`; decrease subtracts 0.1 then
clamps at 0.0 with `max`. -/
def change_volume (em : EffectManager) (increase : Bool) : EffectManager :=
  if increase then { em with volume := min (em.volume + 1/10) 2 }
  else { em with volume := max (em.volume - 1/10) 0 }

/-- EffectManager::change_pitch (effects.rs lines 39-45). -/
def change_pitch (em : EffectManager) (increase : Bool) : EffectManager :=
  if increase then { em with playback_speed := min (em.playback_speed + 1/10) 3 }
  else { em with playback_speed := max (em.playback_speed - 1/10) (1/10) }

/-- EffectManager::change_lowpass (effects.rs lines 52-58); `u32` arithmetic,
`self.lowpass_cutoff - 500` is Rust unsigned subtraction, embedded as
truncated `Nat` subtraction (every reachable cutoff is at least 500, where
the two agree). -/
def change_lowpass (em : EffectManager) (increase : Bool) : EffectManager :=
  if increase then { em with lowpass_cutoff := min (em.lowpass_cutoff + 500) 20000 }
  else { em with lowpass_cutoff := max (em.lowpass_cutoff - 500) 500 }

/-- EffectManager::toggle_reverb (effects.rs lines 69-71). -/
def toggle_reverb (em : EffectManager) : EffectManager :=
  { em with reverb_enabled := !em.reverb_enabled }

end EffectManager

/-- One user-driven effect mutation, as dispatched by the key handlers in
src/app.rs (handle_volume_mode / handle_pitch_mode / handle_filter_mode) and
src/main.rs (handle_key_events). -/
inductive EffectOp where
  | vol (increase : Bool)
  | pitch (increase : Bool)
  | lowpass (increase : Bool)
  | reverb
deriving DecidableEq

/-- Apply one effect mutation. -/
def EffectManager.applyOp (em : EffectManager) : EffectOp → EffectManager
  | .vol b => em.change_volume b
  | .pitch b => em.change_pitch b
  | .lowpass b => em.change_lowpass b
  | .reverb => em.toggle_reverb

/-- Apply a sequence of effect mutations, oldest first. -/
def EffectManager.applyOps (em : EffectManager) (ops : List EffectOp) : EffectManager :=
  ops.foldl EffectManager.applyOp em

/-- The parameter-range invariant stated in the data model: volume in
[0.0, 2.0], speed in [0.1, 3.0], low-pass cutoff in [500, 20000]. -/
def paramsInRange (em : EffectManager) : Prop :=
  0 ≤ em.volume ∧ em.volume ≤ 2 ∧
  1/10 ≤ em.playback_speed ∧ em.playback_speed ≤ 3 ∧
  500 ≤ em.lowpass_cutoff ∧ em.lowpass_cutoff ≤ 20000

instance : DecidablePred paramsInRange := fun em => by
  unfold paramsInRange; infer_instance

/-- Success oracle for the external world: whether rodio can create a sink
and whether a given path can be opened / decoded. -/
structure AudioEnv where
  sinkOk : Bool
  openOk : String → Bool
  decodeOk : String → Bool

/-- A mix graph as built by AudioPlayer::play_sound and
AudioPlayer::update_looping_sounds (src/audio_player.rs lines 79-120 and
184-219): the decoded main path with speed/gain applied, an optional reverb
arm (its own decode of the same path with speed, gain volume*0.4, and the
fixed delay), and an optional low-pass stage applied when the cutoff is
below 20000. -/
structure Graph where
  mainPath : String
  speed : ℚ
  gain : ℚ
  reverb : Option (String × ℚ × ℚ × ℚ)
  lowpass : Option Nat
deriving DecidableEq

/-- Build the mix graph for `path` from the current effect values, in an
environment `env`; the reverb arm is added only when reverb is enabled and
the second open + decode of the same path succeeds (audio_player.rs lines
87-120). -/
def buildMix (env : AudioEnv) (speed vol delay : ℚ) (reverbOn : Bool)
    (cutoff : Nat) (path : String) : Graph :=
  { mainPath := path
    speed := speed
    gain := vol
    reverb :=
      if reverbOn && env.openOk path && env.decodeOk path then
        some (path, speed, vol * (2/5), delay)
      else none
    lowpass := if cutoff < 20000 then some cutoff else none }

/-- One playback session: the element type of `active_sinks`.  In Rust this
is `(Arc<Sink>, bool)`; the sink is modelled by its queue of not-yet-drained
mix graphs, and `createdFrom` is ghost bookkeeping recording the path the
creating `play_sound` call received (the Rust session stores no such path). -/
structure Session where
  queue : List Graph
  looping : Bool
  createdFrom : String
deriving DecidableEq

/-- Monolithic player state, from src/audio_player.rs lines 11-24
(`stream_handle : Option<OutputStreamHandle>` is modelled by the Bool
`has_stream`). -/
structure AudioPlayer where
  has_stream : Bool
  active_sinks : List Session
  playback_speed : ℚ
  volume : ℚ
  lowpass_cutoff : Nat
  reverb_enabled : Bool
  reverb_delay : ℚ
  messages : List String
  last_played : Option ℚ
  waveform_values : List ℚ
  audio_samples : List ℚ
  visual_only_mode : Bool
deriving DecidableEq

namespace AudioPlayer

/-- AudioPlayer::new (audio_player.rs lines 28-54): 100 zero bins, defaults,
visual-only mode exactly when there is no stream handle. -/
def new (has_stream : Bool) : AudioPlayer :=
  { has_stream := has_stream
    active_sinks := []
    playback_speed := 1
    volume := 1
    lowpass_cutoff := 20000
    reverb_enabled := false
    reverb_delay := 6/100
    messages := []
    last_played := none
    waveform_values := List.replicate 100 0
    audio_samples := []
    visual_only_mode := !has_stream }

/-- The effect values of the monolithic player, bundled as an EffectManager
record (the modular player stores them this way). -/
def toEffects (p : AudioPlayer) : EffectManager :=
  { playback_speed := p.playback_speed
    volume := p.volume
    lowpass_cutoff := p.lowpass_cutoff
    reverb_enabled := p.reverb_enabled
    reverb_delay := p.reverb_delay }

end AudioPlayer

/-- AudioPlayer::add_message (audio_player.rs lines 57-63): push, then drop
the oldest entry when the log exceeds 5 entries. -/
def addMessage (msgs : List String) (m : String) : List String :=
  let pushed := msgs ++ [m]
  if pushed.length > 5 then pushed.drop 1 else pushed

/-- The diagnostic string play_sound logs when `File::open` fails
(audio_player.rs lines 131-134). -/
def openErrorMessage (path : String) : String :=
  "Error opening file: Make sure " ++ path ++ " exists!"

namespace AudioPlayer

/-- AudioPlayer::play_sound (audio_player.rs lines 66-140).  Returns the
`io::Result<()>` value together with the successor state.  Every path
returns `Ok(())`; failures only log.  `now` is the wall-clock reading that
`Instant::now()` would produce. -/
def play_sound (env : AudioEnv) (now : ℚ) (p : AudioPlayer) (path : String)
    (is_looping : Bool) : Except String Unit × AudioPlayer :=
  if p.visual_only_mode then
    (Except.ok (), { p with last_played := some now })
  else if p.has_stream then
    if env.sinkOk then
      if env.openOk path then
        if env.decodeOk path then
          (Except.ok (),
           { p with
               active_sinks := p.active_sinks ++
                 [{ queue := [buildMix env p.playback_speed p.volume
                      p.reverb_delay p.reverb_enabled p.lowpass_cutoff path]
                    looping := is_looping
                    createdFrom := path }]
               last_played := some now })
        else
          (Except.ok (), { p with messages := addMessage p.messages "Error decoding audio file" })
      else
        (Except.ok (), { p with messages := addMessage p.messages (openErrorMessage path) })
    else (Except.ok (), p)
  else (Except.ok (), p)

end AudioPlayer

/-- Body of the per-session loop in AudioPlayer::update_looping_sounds
(audio_player.rs lines 182-222): a looping session whose sink is empty gets
a freshly built mix of the hardcoded path "example.wav" appended, provided
that path opens and decodes; every other session is untouched. -/
def reconcileSession (env : AudioEnv) (speed vol delay : ℚ) (reverbOn : Bool)
    (cutoff : Nat) (s : Session) : Session :=
  if s.looping && s.queue.isEmpty then
    if env.openOk "example.wav" then
      if env.decodeOk "example.wav" then
        { s with queue := s.queue ++ [buildMix env speed vol delay reverbOn cutoff "example.wav"] }
      else s
    else s
  else s

namespace AudioPlayer

/-- AudioPlayer::update_looping_sounds (audio_player.rs lines 175-224):
no-op in visual-only mode, otherwise reconcile each session in place (the
Rust loop mutates sinks through `&self` and cannot change the vector). -/
def update_looping_sounds (env : AudioEnv) (p : AudioPlayer) : AudioPlayer :=
  if p.visual_only_mode then p
  else
    let f := reconcileSession env p.playback_speed p.volume p.reverb_delay
      p.reverb_enabled p.lowpass_cutoff
    { p with active_sinks := p.active_sinks.map f }

/-- AudioPlayer::cleanup_finished (audio_player.rs lines 227-231):
retain the sessions that are looping or whose sink is non-empty. -/
def cleanup_finished (p : AudioPlayer) : AudioPlayer :=
  { p with active_sinks := p.active_sinks.filter (fun s => s.looping || !s.queue.isEmpty) }

/-- AudioPlayer::is_playing (audio_player.rs lines 341-343). -/
def is_playing (p : AudioPlayer) : Bool :=
  p.visual_only_mode || !p.active_sinks.isEmpty

/-- AudioPlayer::change_pitch (audio_player.rs lines 143-149); same formula
as EffectManager::change_pitch. -/
def change_pitch (p : AudioPlayer) (increase : Bool) : AudioPlayer :=
  if increase then { p with playback_speed := min (p.playback_speed + 1/10) 3 }
  else { p with playback_speed := max (p.playback_speed - 1/10) (1/10) }

/-- AudioPlayer::change_volume (audio_player.rs lines 152-158). -/
def change_volume (p : AudioPlayer) (increase : Bool) : AudioPlayer :=
  if increase then { p with volume := min (p.volume + 1/10) 2 }
  else { p with volume := max (p.volume - 1/10) 0 }

/-- AudioPlayer::change_lowpass (audio_player.rs lines 161-167). -/
def change_lowpass (p : AudioPlayer) (increase : Bool) : AudioPlayer :=
  if increase then { p with lowpass_cutoff := min (p.lowpass_cutoff + 500) 20000 }
  else { p with lowpass_cutoff := max (p.lowpass_cutoff - 500) 500 }

end AudioPlayer

/-- One fade-out step applied to a single bin: multiply by the factor `r`
(0.9 in the idle branch, 0.95 in the per-bin inactive branches), then snap
to exactly 0 when the result drops below 0.01 (visualization.rs lines 33-38,
87-91, 137-141). -/
def decayStep (r v : ℚ) : ℚ :=
  if v * r < 1/100 then 0 else v * r

/-- Indexed map over a list, starting at index `i0`: the shape of the Rust
loops `for (i, val) in self.waveform_values.iter_mut().enumerate()`. -/
def mapWithIndex (f : Nat → ℚ → ℚ) : Nat → List ℚ → List ℚ
  | _, [] => []
  | i, v :: vs => f i v :: mapWithIndex f (i + 1) vs

/-- The primary ring index of bin `i`: `(i * samples_len / waveform_len)
.min(samples_len - 1)` (visualization.rs line 61, audio_player.rs line 262);
Rust `usize` arithmetic is `Nat` arithmetic with truncating division. -/
def sampleIdx (samplesLen waveformLen i : Nat) : Nat :=
  min (i * samplesLen / waveformLen) (samplesLen - 1)

/-- The reverb ring index: primary index plus `(reverb_delay * 44100.0) as
usize`, reduced modulo the ring length (visualization.rs lines 79-81).  The
`as usize` cast truncates toward zero and saturates negatives at 0, which on
`ℚ` is `Rat.floor` followed by `Int.toNat`. -/
def reverbIdx (samplesLen waveformLen i : Nat) (delay : ℚ) : Nat :=
  (sampleIdx samplesLen waveformLen i + (Rat.floor (delay * 44100)).toNat) % samplesLen

/-- The value written to bin `i` in the active case of
WaveformVisualizer::update_from_samples (visualization.rs lines 59-85):
ring sample magnitude at the primary index scaled by volume and the visual
filter factor, clamped to 1; with reverb enabled, a second magnitude at the
offset index scaled by `0.3 * volume` is added and the sum clamped again. -/
def sampleBinActive (em : EffectManager) (samples : List ℚ) (waveformLen i : Nat) : ℚ :=
  let sl := samples.length
  let si := sampleIdx sl waveformLen i
  let sample := |samples.getD si 0| * em.volume
  let filter_factor : ℚ :=
    if em.lowpass_cutoff < 20000 then (em.lowpass_cutoff : ℚ) / 20000 else 1
  let v := min (sample * filter_factor) 1
  if em.reverb_enabled then
    let reverb_sample := |samples.getD (reverbIdx sl waveformLen i em.reverb_delay) 0| * (3/10) * em.volume
    min (v + reverb_sample) 1
  else v

/-- The value written to bin `i` in the active case of
WaveformVisualizer::simulate_waveform (visualization.rs lines 105-135).
`sinO` abstracts `f64::sin` and `time` the elapsed-seconds reading; the
bound proofs hold for every choice of both. -/
def simulateBinActive (sinO : ℚ → ℚ) (time : ℚ) (em : EffectManager) (i : Nat) : ℚ :=
  let x : ℚ := (i : ℚ) / 10
  let base_wave := sinO (time * 5 * em.playback_speed + x) * em.volume
  let filter_factor : ℚ :=
    if em.lowpass_cutoff < 20000 then (em.lowpass_cutoff : ℚ) / 20000 else 1
  let harmonic := sinO (time * 10 * em.playback_speed + x) * (3/10) * filter_factor
  let combined := |base_wave + harmonic| * em.volume
  let withReverb :=
    if em.reverb_enabled then
      combined + |sinO (time * 5 * em.playback_speed + x - 1/2) * (3/10) * em.volume|
    else combined
  min (withReverb * (7/10)) 1

/-- The guard of the idle-decay branch (visualization.rs lines 30-31,
audio_player.rs lines 236-239): no active sinks, and the last play either
never happened or lies more than 5 seconds in the past. -/
def idleCond (now : ℚ) (active_sinks : List Session) (last_played : Option ℚ) : Bool :=
  active_sinks.isEmpty &&
    (match last_played with
     | none => true
     | some t => decide ((5 : ℚ) < now - t))

/-- Visualizer state, from src/audio_player/visualization.rs lines 9-12. -/
structure WaveformVisualizer where
  waveform_values : List ℚ
  audio_samples : List ℚ
deriving DecidableEq

namespace WaveformVisualizer

/-- WaveformVisualizer::new (visualization.rs lines 15-20). -/
def new (points : Nat) : WaveformVisualizer :=
  { waveform_values := List.replicate points 0, audio_samples := [] }

/-- WaveformVisualizer::update_from_samples (visualization.rs lines 53-94):
active bins are recomputed from the sample ring, inactive bins fade with
factor 0.95 and snap below 0.01. -/
def update_from_samples (is_active : Bool) (em : EffectManager)
    (viz : WaveformVisualizer) : WaveformVisualizer :=
  let bin := fun i v =>
    if is_active then sampleBinActive em viz.audio_samples viz.waveform_values.length i
    else decayStep (19/20) v
  { viz with waveform_values := mapWithIndex bin 0 viz.waveform_values }

/-- WaveformVisualizer::simulate_waveform (visualization.rs lines 96-144). -/
def simulate_waveform (sinO : ℚ → ℚ) (time : ℚ) (is_active visual_only_mode : Bool)
    (em : EffectManager) (viz : WaveformVisualizer) : WaveformVisualizer :=
  let bin := fun i v =>
    if is_active || visual_only_mode then simulateBinActive sinO time em i
    else decayStep (19/20) v
  { viz with waveform_values := mapWithIndex bin 0 viz.waveform_values }

/-- WaveformVisualizer::update (visualization.rs lines 22-51): idle decay
when no sinks are active and the last play is stale, else dispatch on
whether the sample ring is non-empty. -/
def update (sinO : ℚ → ℚ) (time now : ℚ) (active_sinks : List Session)
    (last_played : Option ℚ) (visual_only_mode : Bool) (em : EffectManager)
    (viz : WaveformVisualizer) : WaveformVisualizer :=
  if idleCond now active_sinks last_played then
    { viz with waveform_values := viz.waveform_values.map (decayStep (9/10)) }
  else
    let is_active := !active_sinks.isEmpty
    if !viz.audio_samples.isEmpty then viz.update_from_samples is_active em
    else viz.simulate_waveform sinO time is_active visual_only_mode em

end WaveformVisualizer

namespace AudioPlayer

/-- AudioPlayer::update_waveform (audio_player.rs lines 234-338), the
monolithic copy of the visualizer tick: identical arithmetic to
WaveformVisualizer::update, reading the effect fields inline. -/
def update_waveform (sinO : ℚ → ℚ) (time now : ℚ) (p : AudioPlayer) : AudioPlayer :=
  if idleCond now p.active_sinks p.last_played then
    { p with waveform_values := p.waveform_values.map (decayStep (9/10)) }
  else
    let is_active := !p.active_sinks.isEmpty
    if !p.audio_samples.isEmpty then
      let bin := fun i v =>
        if is_active then sampleBinActive p.toEffects p.audio_samples p.waveform_values.length i
        else decayStep (19/20) v
      { p with waveform_values := mapWithIndex bin 0 p.waveform_values }
    else
      let bin := fun i v =>
        if is_active || p.visual_only_mode then simulateBinActive sinO time p.toEffects i
        else decayStep (19/20) v
      { p with waveform_values := mapWithIndex bin 0 p.waveform_values }

end AudioPlayer

/-- The individual player calls App::update makes per tick, in the two
generations of the application loop. -/
inductive TickOp where
  | reconcileLoops
  | cleanupFinished
  | updateWaveform
  | visualizerUpdate
deriving DecidableEq

/-- Call order of App::update in src/main.rs lines 410-420:
update_looping_sounds, then cleanup_finished, then (every 50 ms)
update_waveform. -/
def mainUpdateTrace : List TickOp :=
  [TickOp.reconcileLoops, TickOp.cleanupFinished, TickOp.updateWaveform]

/-- Call order of App::update in src/app.rs lines 278-282: cleanup_finished
FIRST, then update_looping_sounds, then the visualizer refresh. -/
def appUpdateTrace : List TickOp :=
  [TickOp.cleanupFinished, TickOp.reconcileLoops, TickOp.visualizerUpdate]

/-- The two App::update call sequences present in the repository. -/
def updateCycleTraces : List (List TickOp) := [mainUpdateTrace, appUpdateTrace]

/-- Whether loop reconciliation occurs strictly before cleanup in a tick
trace. -/
def reconcileBeforeCleanup (t : List TickOp) : Bool :=
  decide (t.indexOf TickOp.reconcileLoops < t.indexOf TickOp.cleanupFinished)

/-- App::update from src/main.rs lines 410-420 as a state transformer on the
monolithic player; `waveformDue` is the 50 ms sub-interval test. -/
def appUpdateMain (env : AudioEnv) (sinO : ℚ → ℚ) (time now : ℚ)
    (waveformDue : Bool) (p : AudioPlayer) : AudioPlayer :=
  let p1 := p.update_looping_sounds env
  let p2 := p1.cleanup_finished
  if waveformDue then p2.update_waveform sinO time now else p2

/-! Concrete instances used by witnesses and counterexamples. -/

/-- Environment in which every sink creation, open and decode succeeds. -/
def allOkEnv : AudioEnv :=
  { sinkOk := true, openOk := fun _ => true, decodeOk := fun _ => true }

/-- Environment in which opening any file fails. -/
def noOpenEnv : AudioEnv :=
  { sinkOk := true, openOk := fun _ => false, decodeOk := fun _ => true }

/-- A looping session whose sink has drained and whose creating play call
was given the path "other.wav". -/
def exSession : Session :=
  { queue := [], looping := true, createdFrom := "other.wav" }

/-- A player (audio device present) holding just `exSession`. -/
def exPlayer : AudioPlayer :=
  { AudioPlayer.new true with active_sinks := [exSession] }

/-- A non-looping session with a drained sink. -/
def doneSession : Session :=
  { queue := [], looping := false, createdFrom := "done.wav" }

/-- Trivial stand-in for the sine oracle. -/
def sinZero : ℚ → ℚ := fun _ => 0

/-- A fresh 100-bin visualizer (empty sample ring). -/
def vizEx : WaveformVisualizer := WaveformVisualizer.new 100

/-- A one-bin visualizer holding the value 1/2 (empty sample ring). -/
def vizSmall : WaveformVisualizer :=
  { waveform_values := [1/2], audio_samples := [] }

/-! Helper lemmas. -/

lemma change_volume_bounds (em : EffectManager) (b : Bool)
    (h0 : 0 ≤ em.volume) (h2 : em.volume ≤ 2) :
    0 ≤ (em.change_volume b).volume ∧ (em.change_volume b).volume ≤ 2 ∧
    (em.change_volume b).playback_speed = em.playback_speed ∧
    (em.change_volume b).lowpass_cutoff = em.lowpass_cutoff := by
  unfold EffectManager.change_volume
  split <;> refine ⟨?_, ?_, rfl, rfl⟩
  · exact le_min (by linarith) (by norm_num)
  · exact min_le_right _ _
  · exact le_max_right _ _
  · exact max_le (by linarith) (by norm_num)

lemma change_pitch_bounds (em : EffectManager) (b : Bool)
    (h0 : 1/10 ≤ em.playback_speed) (h3 : em.playback_speed ≤ 3) :
    1/10 ≤ (em.change_pitch b).playback_speed ∧ (em.change_pitch b).playback_speed ≤ 3 ∧
    (em.change_pitch b).volume = em.volume ∧
    (em.change_pitch b).lowpass_cutoff = em.lowpass_cutoff := by
  unfold EffectManager.change_pitch
  split <;> refine ⟨?_, ?_, rfl, rfl⟩
  · exact le_min (by linarith) (by norm_num)
  · exact min_le_right _ _
  · exact le_max_right _ _
  · exact max_le (by linarith) (by norm_num)

lemma change_lowpass_bounds (em : EffectManager) (b : Bool)
    (h0 : 500 ≤ em.lowpass_cutoff) (h2 : em.lowpass_cutoff ≤ 20000) :
    500 ≤ (em.change_lowpass b).lowpass_cutoff ∧ (em.change_lowpass b).lowpass_cutoff ≤ 20000 ∧
    (em.change_lowpass b).volume = em.volume ∧
    (em.change_lowpass b).playback_speed = em.playback_speed := by
  unfold EffectManager.change_lowpass
  split <;> refine ⟨?_, ?_, rfl, rfl⟩
  · exact le_min (by omega) (by omega)
  · exact min_le_right _ _
  · exact le_max_right _ _
  · exact max_le (by omega) (by omega)

lemma paramsInRange_applyOp {em : EffectManager} (h : paramsInRange em)
    (op : EffectOp) : paramsInRange (em.applyOp op) := by
  obtain ⟨hv0, hv2, hs0, hs3, hc0, hc2⟩ := h
  cases op with
  | vol b =>
    obtain ⟨a1, a2, a3, a4⟩ := change_volume_bounds em b hv0 hv2
    exact ⟨a1, a2, a3 ▸ hs0, a3 ▸ hs3, a4 ▸ hc0, a4 ▸ hc2⟩
  | pitch b =>
    obtain ⟨a1, a2, a3, a4⟩ := change_pitch_bounds em b hs0 hs3
    exact ⟨a3 ▸ hv0, a3 ▸ hv2, a1, a2, a4 ▸ hc0, a4 ▸ hc2⟩
  | lowpass b =>
    obtain ⟨a1, a2, a3, a4⟩ := change_lowpass_bounds em b hc0 hc2
    exact ⟨a3 ▸ hv0, a3 ▸ hv2, a4 ▸ hs0, a4 ▸ hs3, a1, a2⟩
  | reverb =>
    exact ⟨hv0, hv2, hs0, hs3, hc0, hc2⟩

lemma paramsInRange_applyOps (ops : List EffectOp) {em : EffectManager}
    (h : paramsInRange em) : paramsInRange (em.applyOps ops) := by
  induction ops generalizing em with
  | nil => exact h
  | cons op rest ih => exact ih (paramsInRange_applyOp h op)

lemma paramsInRange_new : paramsInRange EffectManager.new := by
  unfold paramsInRange EffectManager.new
  norm_num

/-- C4: starting from the initial parameter values, any sequence of
change_volume / change_pitch / change_lowpass (and toggle_reverb) calls
keeps volume in [0, 2], playback speed in [0.1, 3] and the low-pass cutoff
in [500, 20000]; and a further step in the direction of a bound a value
already sits at leaves the value exactly at that bound. -/
theorem effect_params_clamped :
    (∀ ops : List EffectOp, paramsInRange (EffectManager.new.applyOps ops)) ∧
    (∀ em : EffectManager, em.volume = 2 → (em.change_volume true).volume = 2) ∧
    (∀ em : EffectManager, em.volume = 0 → (em.change_volume false).volume = 0) ∧
    (∀ em : EffectManager, em.playback_speed = 3 → (em.change_pitch true).playback_speed = 3) ∧
    (∀ em : EffectManager, em.playback_speed = 1/10 →
      (em.change_pitch false).playback_speed = 1/10) ∧
    (∀ em : EffectManager, em.lowpass_cutoff = 20000 →
      (em.change_lowpass true).lowpass_cutoff = 20000) ∧
    (∀ em : EffectManager, em.lowpass_cutoff = 500 →
      (em.change_lowpass false).lowpass_cutoff = 500) := by
  refine ⟨fun ops => paramsInRange_applyOps ops paramsInRange_new,
    fun em h => ?_, fun em h => ?_, fun em h => ?_, fun em h => ?_,
    fun em h => ?_, fun em h => ?_⟩
  · show (min (em.volume + 1/10) 2) = 2
    rw [h]; exact min_eq_right (by norm_num)
  · show (max (em.volume - 1/10) 0) = 0
    rw [h]; exact max_eq_right (by norm_num)
  · show (min (em.playback_speed + 1/10) 3) = 3
    rw [h]; exact min_eq_right (by norm_num)
  · show (max (em.playback_speed - 1/10) (1/10)) = 1/10
    rw [h]; exact max_eq_right (by norm_num)
  · show (min (em.lowpass_cutoff + 500) 20000) = 20000
    rw [h]; omega
  · show (max (em.lowpass_cutoff - 500) 500) = 500
    rw [h]; omega

/-- C4 witness: the clamping theorem instantiated at a concrete call
sequence and at parameter records sitting exactly at each bound. -/
theorem effect_params_clamped_witness :
    paramsInRange (EffectManager.new.applyOps
      [EffectOp.vol true, EffectOp.pitch false, EffectOp.lowpass true]) ∧
    (({ EffectManager.new with volume := 2 } : EffectManager).change_volume true).volume = 2 ∧
    (({ EffectManager.new with volume := 0 } : EffectManager).change_volume false).volume = 0 ∧
    (({ EffectManager.new with playback_speed := 3 } : EffectManager).change_pitch
      true).playback_speed = 3 ∧
    (({ EffectManager.new with playback_speed := 1/10 } : EffectManager).change_pitch
      false).playback_speed = 1/10 ∧
    (EffectManager.new.change_lowpass true).lowpass_cutoff = 20000 ∧
    (({ EffectManager.new with lowpass_cutoff := 500 } : EffectManager).change_lowpass
      false).lowpass_cutoff = 500 :=
  ⟨effect_params_clamped.1 _,
   effect_params_clamped.2.1 _ rfl,
   effect_params_clamped.2.2.1 _ rfl,
   effect_params_clamped.2.2.2.1 _ rfl,
   effect_params_clamped.2.2.2.2.1 _ rfl,
   effect_params_clamped.2.2.2.2.2.1 _ rfl,
   effect_params_clamped.2.2.2.2.2.2 _ rfl⟩

lemma looping_or_nonempty_iff (s : Session) :
    (s.looping || !s.queue.isEmpty) = true ↔ (s.looping = true ∨ s.queue ≠ []) := by
  cases hq : s.queue <;> cases hl : s.looping <;> simp [hq, hl]

lemma count_filter_of_pos {α : Type} [DecidableEq α] (p : α → Bool) (a : α)
    (h : p a = true) : ∀ l : List α, (l.filter p).count a = l.count a := by
  intro l
  induction l with
  | nil => rfl
  | cons x xs ih =>
    rw [List.filter_cons]
    by_cases hpx : p x = true
    · rw [if_pos hpx, List.count_cons, List.count_cons, ih]
    · rw [if_neg hpx, ih, List.count_cons]
      have hne : (x == a) = false := by
        refine beq_eq_false_iff_ne.mpr ?_
        intro e
        exact hpx (by rw [e]; exact h)
      rw [hne]
      simp

/-- C5: cleanup_finished keeps a session exactly when it is looping or its
sink still has pending audio, i.e. it removes exactly the non-looping
drained sessions; a looping session is never removed (its multiplicity in
the active set is preserved). -/
theorem cleanup_removes_exactly_drained_nonlooping :
    (∀ (p : AudioPlayer) (s : Session),
        s ∈ p.cleanup_finished.active_sinks ↔
          s ∈ p.active_sinks ∧ (s.looping = true ∨ s.queue ≠ [])) ∧
    (∀ (p : AudioPlayer) (s : Session), s.looping = true →
        p.cleanup_finished.active_sinks.count s = p.active_sinks.count s) := by
  constructor
  · intro p s
    show s ∈ p.active_sinks.filter _ ↔ _
    rw [List.mem_filter, looping_or_nonempty_iff]
  · intro p s hl
    show (p.active_sinks.filter _).count s = _
    exact count_filter_of_pos _ s (by rw [hl, Bool.true_or]) p.active_sinks

/-- C5 witness: in a player holding one drained looping session and one
drained non-looping session, cleanup keeps exactly the looping one. -/
theorem cleanup_removes_exactly_drained_nonlooping_witness :
    (exSession ∈
        ({ exPlayer with active_sinks := [exSession, doneSession] } :
          AudioPlayer).cleanup_finished.active_sinks ↔
      exSession ∈ [exSession, doneSession] ∧
        (exSession.looping = true ∨ exSession.queue ≠ [])) ∧
    ¬ (doneSession ∈
        ({ exPlayer with active_sinks := [exSession, doneSession] } :
          AudioPlayer).cleanup_finished.active_sinks) ∧
    ({ exPlayer with active_sinks := [exSession, doneSession] } :
        AudioPlayer).cleanup_finished.active_sinks.count exSession =
      ([exSession, doneSession] : List Session).count exSession := by
  refine ⟨cleanup_removes_exactly_drained_nonlooping.1 _ _, ?_, 
    cleanup_removes_exactly_drained_nonlooping.2 _ _ rfl⟩
  intro hmem
  have h := (cleanup_removes_exactly_drained_nonlooping.1
    ({ exPlayer with active_sinks := [exSession, doneSession] }) doneSession).mp hmem
  rcases h.2 with h2 | h2
  · exact absurd h2 (by decide)
  · exact h2 rfl

/-- C6: in visual-only mode play_sound always returns Ok, records
last_played = now, and changes nothing else (no session is created, no mix
graph is built); and is_playing is true in every state whose visual-only
flag is set. -/
theorem play_sound_visual_only
    (env : AudioEnv) (now : ℚ) (p : AudioPlayer) (path : String) (loop : Bool)
    (hv : p.visual_only_mode = true) :
    p.play_sound env now path loop = (Except.ok (), { p with last_played := some now }) ∧
    (∀ q : AudioPlayer, q.visual_only_mode = true → q.is_playing = true) := by
  constructor
  · unfold AudioPlayer.play_sound
    rw [hv]
    simp
  · intro q hq
    unfold AudioPlayer.is_playing
    rw [hq]
    simp

/-- C6 witness: a concrete visual-only player (no audio device). -/
theorem play_sound_visual_only_witness :
    (AudioPlayer.new false).play_sound allOkEnv 7 "example.wav" true =
      (Except.ok (), { AudioPlayer.new false with last_played := some 7 }) ∧
    (∀ q : AudioPlayer, q.visual_only_mode = true → q.is_playing = true) :=
  play_sound_visual_only allOkEnv 7 (AudioPlayer.new false) "example.wav" true rfl

/-- C7: is_playing is true exactly when the player is in visual-only mode or
the active-session collection is non-empty. -/
theorem is_playing_iff (p : AudioPlayer) :
    p.is_playing = true ↔ (p.visual_only_mode = true ∨ p.active_sinks ≠ []) := by
  unfold AudioPlayer.is_playing
  cases hs : p.active_sinks <;> cases hv : p.visual_only_mode <;> simp [hs, hv]

lemma addMessage_getLast (msgs : List String) (m : String) :
    (addMessage msgs m).getLast? = some m := by
  show (if (msgs ++ [m]).length > 5 then (msgs ++ [m]).drop 1
        else (msgs ++ [m])).getLast? = some m
  split
  · rename_i hlen
    cases msgs with
    | nil => simp at hlen
    | cons a t =>
      rw [List.cons_append, List.drop_one, List.tail_cons]
      simp
  · simp

/-- C3: when the player is not in visual-only mode, has a stream handle and
a sink can be created, but opening the source file fails, play_sound still
returns Ok, appends exactly the one open-error diagnostic to the (bounded)
message log, and leaves every other field -- in particular active_sinks and
last_played -- unchanged. -/
theorem play_sound_open_error
    (env : AudioEnv) (now : ℚ) (p : AudioPlayer) (path : String) (loop : Bool)
    (hv : p.visual_only_mode = false) (hs : p.has_stream = true)
    (hsink : env.sinkOk = true) (ho : env.openOk path = false) :
    p.play_sound env now path loop =
      (Except.ok (), { p with messages := addMessage p.messages (openErrorMessage path) }) ∧
    (addMessage p.messages (openErrorMessage path)).getLast? = some (openErrorMessage path) ∧
    ({ p with messages := addMessage p.messages (openErrorMessage path) } :
        AudioPlayer).active_sinks = p.active_sinks ∧
    ({ p with messages := addMessage p.messages (openErrorMessage path) } :
        AudioPlayer).last_played = p.last_played := by
  refine ⟨?_, addMessage_getLast _ _, rfl, rfl⟩
  unfold AudioPlayer.play_sound
  rw [hv, hs, hsink, ho]
  simp

/-- C3 witness: playing "missing.wav" on a fresh device-backed player in an
environment where every open fails. -/
theorem play_sound_open_error_witness :
    (AudioPlayer.new true).play_sound noOpenEnv 3 "missing.wav" false =
      (Except.ok (), { AudioPlayer.new true with
        messages := addMessage (AudioPlayer.new true).messages
          (openErrorMessage "missing.wav") }) ∧
    (addMessage (AudioPlayer.new true).messages (openErrorMessage "missing.wav")).getLast? =
      some (openErrorMessage "missing.wav") ∧
    ({ AudioPlayer.new true with
        messages := addMessage (AudioPlayer.new true).messages
          (openErrorMessage "missing.wav") } : AudioPlayer).active_sinks =
      (AudioPlayer.new true).active_sinks ∧
    ({ AudioPlayer.new true with
        messages := addMessage (AudioPlayer.new true).messages
          (openErrorMessage "missing.wav") } : AudioPlayer).last_played =
      (AudioPlayer.new true).last_played :=
  play_sound_open_error noOpenEnv 3 (AudioPlayer.new true) "missing.wav" false rfl rfl rfl rfl

/-- C2 counterexample: in the modular application loop (src/app.rs
App::update, lines 278-282) cleanup_finished is called BEFORE
update_looping_sounds, so loop reconciliation does not precede cleanup in
that update cycle. -/
theorem app_update_runs_cleanup_first :
    reconcileBeforeCleanup appUpdateTrace = false ∧
    appUpdateTrace ∈ updateCycleTraces := by
  exact ⟨by decide, by decide⟩

/-- C2 amended: in the monolithic loop (src/main.rs App::update) loop
reconciliation does run before cleanup -- and that is literally how the
composed tick is defined -- while in the modular loop (src/app.rs) cleanup
runs first; even under that order no looping session can be evicted,
because cleanup_finished preserves the multiplicity of every looping
session. -/
theorem main_update_reconcile_before_cleanup :
    reconcileBeforeCleanup mainUpdateTrace = true ∧
    (∀ (env : AudioEnv) (sinO : ℚ → ℚ) (time now : ℚ) (due : Bool) (p : AudioPlayer),
        appUpdateMain env sinO time now due p =
          (if due then
            ((p.update_looping_sounds env).cleanup_finished).update_waveform sinO time now
           else (p.update_looping_sounds env).cleanup_finished)) ∧
    (∀ (p : AudioPlayer) (s : Session), s.looping = true →
        p.cleanup_finished.active_sinks.count s = p.active_sinks.count s) := by
  refine ⟨by decide, fun env sinO time now due p => rfl, fun p s hl => ?_⟩
  show (p.active_sinks.filter _).count s = _
  exact count_filter_of_pos _ s (by rw [hl, Bool.true_or]) p.active_sinks

/-- C2 witness: the amended ordering statement instantiated at a concrete
player holding one drained looping session. -/
theorem main_update_reconcile_before_cleanup_witness :
    reconcileBeforeCleanup mainUpdateTrace = true ∧
    exPlayer.cleanup_finished.active_sinks.count exSession =
      exPlayer.active_sinks.count exSession :=
  ⟨main_update_reconcile_before_cleanup.1,
   main_update_reconcile_before_cleanup.2.2 exPlayer exSession rfl⟩

/-- C1 counterexample: a looping session created by play from "other.wav";
once its sink drains, update_looping_sounds appends a mix graph decoding the
hardcoded "example.wav", not the source the session was created with. -/
theorem update_looping_uses_hardcoded_path :
    exSession.createdFrom = "other.wav" ∧
    ((exPlayer.update_looping_sounds allOkEnv).active_sinks.map
        (fun s => s.queue.map Graph.mainPath)) = [["example.wav"]] ∧
    ("example.wav" : String) ≠ "other.wav" := by
  refine ⟨rfl, ?_, by decide⟩
  rfl

/-- C1 amended: for every looping session whose sink reports no pending
audio (outside visual-only mode, with "example.wav" openable and decodable),
update_looping_sounds rebuilds the mix graph -- decode, then speed/gain,
then optional reverb, then optional low-pass, with the current parameters --
from the FIXED path "example.wav" rather than the session's creation source,
appends it to that session's own sink, and keeps every session in the
active set. -/
theorem update_looping_rebuilds_from_example_wav
    (env : AudioEnv) (p : AudioPlayer)
    (hv : p.visual_only_mode = false)
    (ho : env.openOk "example.wav" = true) (hd : env.decodeOk "example.wav" = true) :
    (p.update_looping_sounds env).active_sinks.length = p.active_sinks.length ∧
    (∀ s ∈ p.active_sinks, s.looping = true → s.queue = [] →
        ({ s with queue := [buildMix env p.playback_speed p.volume p.reverb_delay
            p.reverb_enabled p.lowpass_cutoff "example.wav"] } : Session) ∈
          (p.update_looping_sounds env).active_sinks) ∧
    (∀ s ∈ p.active_sinks, (s.looping = false ∨ s.queue ≠ []) →
        s ∈ (p.update_looping_sounds env).active_sinks) ∧
    (p.update_looping_sounds env).messages = p.messages ∧
    (p.update_looping_sounds env).last_played = p.last_played := by
  have hup : p.update_looping_sounds env =
      { p with active_sinks := p.active_sinks.map (reconcileSession env
          p.playback_speed p.volume p.reverb_delay p.reverb_enabled p.lowpass_cutoff) } := by
    unfold AudioPlayer.update_looping_sounds
    rw [hv]
    simp
  refine ⟨by rw [hup]; exact List.length_map _ _, ?_, ?_, by rw [hup], by rw [hup]⟩
  · intro s hs hl hq
    rw [hup]
    have hexp : reconcileSession env p.playback_speed p.volume p.reverb_delay
        p.reverb_enabled p.lowpass_cutoff s =
        { s with queue := [buildMix env p.playback_speed p.volume p.reverb_delay
            p.reverb_enabled p.lowpass_cutoff "example.wav"] } := by
      unfold reconcileSession
      rw [hl, hq, ho, hd]
      simp
    exact hexp ▸ List.mem_map_of_mem _ hs
  · intro s hs hcase
    rw [hup]
    have hexp : reconcileSession env p.playback_speed p.volume p.reverb_delay
        p.reverb_enabled p.lowpass_cutoff s = s := by
      unfold reconcileSession
      rcases hcase with hl | hq
      · rw [hl]
        simp
      · have : s.queue.isEmpty = false := by
          cases hqq : s.queue with
          | nil => exact absurd hqq hq
          | cons a t => rfl
        rw [this]
        simp
    exact hexp ▸ List.mem_map_of_mem _ hs

/-- C1 witness: the amended reconciliation statement instantiated at
`exPlayer` (one drained looping session) in the all-success environment. -/
theorem update_looping_rebuilds_from_example_wav_witness :
    (exPlayer.update_looping_sounds allOkEnv).active_sinks.length =
      exPlayer.active_sinks.length ∧
    ({ exSession with queue := [buildMix allOkEnv exPlayer.playback_speed exPlayer.volume
        exPlayer.reverb_delay exPlayer.reverb_enabled exPlayer.lowpass_cutoff
        "example.wav"] } : Session) ∈
      (exPlayer.update_looping_sounds allOkEnv).active_sinks :=
  ⟨(update_looping_rebuilds_from_example_wav allOkEnv exPlayer rfl rfl rfl).1,
   (update_looping_rebuilds_from_example_wav allOkEnv exPlayer rfl rfl rfl).2.1
     exSession (List.mem_singleton.mpr rfl) rfl rfl⟩

lemma decayStep_nonneg {r v : ℚ} (hr : 0 ≤ r) (hv : 0 ≤ v) : 0 ≤ decayStep r v := by
  unfold decayStep
  split
  · exact le_refl 0
  · exact mul_nonneg hv hr

lemma decayStep_le_mul {r v : ℚ} (hr : 0 ≤ r) (hv : 0 ≤ v) : decayStep r v ≤ v * r := by
  unfold decayStep
  split
  · exact mul_nonneg hv hr
  · exact le_refl _

lemma decayStep_iter_bound (n : Nat) {v : ℚ} (hv : 0 ≤ v) :
    0 ≤ (decayStep (9/10))^[n] v ∧ (decayStep (9/10))^[n] v ≤ (9/10)^n * v := by
  induction n with
  | zero => exact ⟨hv, by simp⟩
  | succ n ih =>
    obtain ⟨h0, h1⟩ := ih
    rw [Function.iterate_succ_apply']
    refine ⟨decayStep_nonneg (by norm_num) h0, ?_⟩
    calc decayStep (9/10) ((decayStep (9/10))^[n] v)
        ≤ ((decayStep (9/10))^[n] v) * (9/10) := decayStep_le_mul (by norm_num) h0
      _ ≤ ((9/10)^n * v) * (9/10) := mul_le_mul_of_nonneg_right h1 (by norm_num)
      _ = (9/10)^(n+1) * v := by ring

lemma decayStep_eq_zero_of_small {r v : ℚ} (h : v * r < 1/100) : decayStep r v = 0 := by
  unfold decayStep
  exact if_pos h

lemma decayStep_iter44_eq_zero {v : ℚ} (h0 : 0 ≤ v) (h1 : v ≤ 1) :
    (decayStep (9/10))^[44] v = 0 := by
  obtain ⟨hn, hb⟩ := decayStep_iter_bound 43 h0
  have h3 : ((decayStep (9/10))^[43] v) ≤ (9/10)^43 := by
    calc ((decayStep (9/10))^[43] v) ≤ (9/10)^43 * v := hb
      _ ≤ (9/10)^43 * 1 := mul_le_mul_of_nonneg_left h1 (by positivity)
      _ = (9/10)^43 := mul_one _
  have hsmall : ((decayStep (9/10))^[43] v) * (9/10) < 1/100 := by
    calc ((decayStep (9/10))^[43] v) * (9/10)
        ≤ (9/10)^43 * (9/10) := mul_le_mul_of_nonneg_right h3 (by norm_num)
      _ = (9/10)^44 := by ring
      _ < 1/100 := by norm_num
  rw [show (44 : Nat) = 43 + 1 from rfl, Function.iterate_succ_apply']
  exact decayStep_eq_zero_of_small hsmall

lemma map_iterate_eq (f : ℚ → ℚ) (n : Nat) (l : List ℚ) :
    (fun l : List ℚ => l.map f)^[n] l = l.map f^[n] := by
  induction n generalizing l with
  | zero => simp
  | succ n ih =>
    rw [Function.iterate_succ_apply]
    show (fun l : List ℚ => l.map f)^[n] (l.map f) = _
    rw [ih, List.map_map, ← Function.iterate_succ]

/-- C8: under the idle-decay condition (no active sinks and last_played
unset or more than 5 seconds old), the visualizer update maps decayStep 0.9
over every bin (multiply by 0.9, snap below 0.01 to exactly 0); iterating
that step 44 times sends every starting value in [0, 1] to exactly 0, bin
by bin and for whole buffers. -/
theorem idle_decay_reaches_zero :
    (∀ (sinO : ℚ → ℚ) (time now : ℚ) (sinks : List Session) (lp : Option ℚ)
        (vo : Bool) (em : EffectManager) (viz : WaveformVisualizer),
        idleCond now sinks lp = true →
        WaveformVisualizer.update sinO time now sinks lp vo em viz =
          { viz with waveform_values := viz.waveform_values.map (decayStep (9/10)) }) ∧
    (∀ v : ℚ, 0 ≤ v → v ≤ 1 → (decayStep (9/10))^[44] v = 0) ∧
    (∀ bins : List ℚ, (∀ v ∈ bins, 0 ≤ v ∧ v ≤ 1) →
        (fun l : List ℚ => l.map (decayStep (9/10)))^[44] bins =
          bins.map (fun _ => 0)) := by
  refine ⟨fun sinO time now sinks lp vo em viz hidle => ?_,
    fun v h0 h1 => decayStep_iter44_eq_zero h0 h1, fun bins hb => ?_⟩
  · unfold WaveformVisualizer.update
    rw [hidle]
    simp
  · rw [map_iterate_eq]
    apply List.map_congr_left
    intro v hv
    exact decayStep_iter44_eq_zero (hb v hv).1 (hb v hv).2

/-- C8 witness: the idle branch taken on a fresh player state, and the decay
iteration evaluated at the concrete bin value 1/2. -/
theorem idle_decay_reaches_zero_witness :
    WaveformVisualizer.update sinZero 0 0 [] none false EffectManager.new vizEx =
      { vizEx with waveform_values := vizEx.waveform_values.map (decayStep (9/10)) } ∧
    (decayStep (9/10))^[44] (1/2) = 0 :=
  ⟨idle_decay_reaches_zero.1 sinZero 0 0 [] none false EffectManager.new vizEx rfl,
   idle_decay_reaches_zero.2.1 (1/2) (by norm_num) (by norm_num)⟩

lemma decayStep_unit {r v : ℚ} (hr0 : 0 ≤ r) (hr1 : r ≤ 1) (h0 : 0 ≤ v) (h1 : v ≤ 1) :
    0 ≤ decayStep r v ∧ decayStep r v ≤ 1 := by
  unfold decayStep
  split
  · exact ⟨le_refl 0, by norm_num⟩
  · refine ⟨mul_nonneg h0 hr0, ?_⟩
    nlinarith

lemma sampleBinActive_unit (em : EffectManager) (samples : List ℚ) (wl i : Nat)
    (hvol : 0 ≤ em.volume) :
    0 ≤ sampleBinActive em samples wl i ∧ sampleBinActive em samples wl i ≤ 1 := by
  unfold sampleBinActive
  dsimp only
  have hff : (0:ℚ) ≤
      (if em.lowpass_cutoff < 20000 then (em.lowpass_cutoff : ℚ) / 20000 else 1) := by
    split
    · positivity
    · norm_num
  have hsample : 0 ≤ |samples.getD (sampleIdx samples.length wl i) 0| * em.volume :=
    mul_nonneg (abs_nonneg _) hvol
  have hv0 : (0:ℚ) ≤
      min (|samples.getD (sampleIdx samples.length wl i) 0| * em.volume *
        (if em.lowpass_cutoff < 20000 then (em.lowpass_cutoff : ℚ) / 20000 else 1)) 1 :=
    le_min (mul_nonneg hsample hff) (by norm_num)
  split
  · refine ⟨le_min (add_nonneg hv0 ?_) (by norm_num), min_le_right _ _⟩
    exact mul_nonneg (mul_nonneg (abs_nonneg _) (by norm_num)) hvol
  · exact ⟨hv0, min_le_right _ _⟩

lemma simulateBinActive_unit (sinO : ℚ → ℚ) (time : ℚ) (em : EffectManager) (i : Nat)
    (hvol : 0 ≤ em.volume) :
    0 ≤ simulateBinActive sinO time em i ∧ simulateBinActive sinO time em i ≤ 1 := by
  unfold simulateBinActive
  dsimp only
  have hcomb : (0:ℚ) ≤
      |sinO (time * 5 * em.playback_speed + (i : ℚ) / 10) * em.volume +
        sinO (time * 10 * em.playback_speed + (i : ℚ) / 10) * (3/10) *
          (if em.lowpass_cutoff < 20000 then (em.lowpass_cutoff : ℚ) / 20000 else 1)| *
        em.volume :=
    mul_nonneg (abs_nonneg _) hvol
  split
  · refine ⟨le_min (mul_nonneg (add_nonneg hcomb (abs_nonneg _)) (by norm_num))
      (by norm_num), min_le_right _ _⟩
  · exact ⟨le_min (mul_nonneg hcomb (by norm_num)) (by norm_num), min_le_right _ _⟩

lemma mem_mapWithIndex {f : Nat → ℚ → ℚ} :
    ∀ (l : List ℚ) (i0 : Nat) (x : ℚ), x ∈ mapWithIndex f i0 l →
      ∃ j v, v ∈ l ∧ x = f j v := by
  intro l
  induction l with
  | nil =>
    intro i0 x hx
    simp [mapWithIndex] at hx
  | cons a t ih =>
    intro i0 x hx
    simp only [mapWithIndex] at hx
    rcases List.mem_cons.mp hx with h | h
    · exact ⟨i0, a, List.mem_cons_self a t, h⟩
    · obtain ⟨j, v, hv, he⟩ := ih (i0 + 1) x h
      exact ⟨j, v, List.mem_cons_of_mem a hv, he⟩

/-- C9: every bin value of the visualizer buffer lies in [0, 1] after any
update, under every rendering strategy (idle decay, sample-driven, synthetic
fallback), for every sine/time oracle, provided the current volume is
non-negative (which holds in every reachable state by the clamping
invariant) and the buffer satisfied the bound before the update. -/
theorem waveform_bins_stay_in_unit_interval
    (sinO : ℚ → ℚ) (time now : ℚ) (sinks : List Session) (lp : Option ℚ)
    (vo : Bool) (em : EffectManager) (viz : WaveformVisualizer)
    (hvol : 0 ≤ em.volume)
    (hbins : ∀ v ∈ viz.waveform_values, 0 ≤ v ∧ v ≤ 1) :
    ∀ v ∈ (WaveformVisualizer.update sinO time now sinks lp vo em viz).waveform_values,
      0 ≤ v ∧ v ≤ 1 := by
  intro v hv
  unfold WaveformVisualizer.update at hv
  split at hv
  · dsimp only at hv
    rcases List.mem_map.mp hv with ⟨w, hw, rfl⟩
    exact decayStep_unit (by norm_num) (by norm_num) (hbins w hw).1 (hbins w hw).2
  · split at hv
    · unfold WaveformVisualizer.update_from_samples at hv
      dsimp only at hv
      obtain ⟨j, w, hw, rfl⟩ := mem_mapWithIndex _ _ _ hv
      split
      · exact sampleBinActive_unit em viz.audio_samples viz.waveform_values.length j hvol
      · exact decayStep_unit (by norm_num) (by norm_num) (hbins w hw).1 (hbins w hw).2
    · unfold WaveformVisualizer.simulate_waveform at hv
      dsimp only at hv
      obtain ⟨j, w, hw, rfl⟩ := mem_mapWithIndex _ _ _ hv
      split
      · exact simulateBinActive_unit sinO time em j hvol
      · exact decayStep_unit (by norm_num) (by norm_num) (hbins w hw).1 (hbins w hw).2

/-- C9 witness: the bound instantiated on a one-bin visualizer taking the
synthetic-active strategy, specialized to its single concrete output bin. -/
theorem waveform_bins_stay_in_unit_interval_witness :
    0 ≤ simulateBinActive sinZero 0 EffectManager.new 0 ∧
    simulateBinActive sinZero 0 EffectManager.new 0 ≤ 1 :=
  waveform_bins_stay_in_unit_interval sinZero 0 0 [exSession] none true
    EffectManager.new vizSmall (by norm_num [EffectManager.new])
    (by
      intro v hv
      rw [List.mem_singleton.mp hv]
      norm_num)
    (simulateBinActive sinZero 0 EffectManager.new 0)
    (List.mem_singleton.mpr rfl)

/-- C10: in the sample-driven branch every ring access is in bounds for
every non-empty ring: the primary index is clamped to ring length minus one,
the reverb offset index is reduced modulo the ring length, and the update
dispatch reaches the sample-driven branch only when the ring is non-empty
(with an empty ring and the idle branch not taken, update is exactly the
synthetic fallback). -/
theorem sample_ring_indices_in_bounds :
    (∀ sl wl i : Nat, 0 < sl → sampleIdx sl wl i < sl) ∧
    (∀ (sl wl i : Nat) (d : ℚ), 0 < sl → reverbIdx sl wl i d < sl) ∧
    (∀ (sinO : ℚ → ℚ) (time now : ℚ) (sinks : List Session) (lp : Option ℚ)
        (vo : Bool) (em : EffectManager) (viz : WaveformVisualizer),
        viz.audio_samples = [] → idleCond now sinks lp = false →
        WaveformVisualizer.update sinO time now sinks lp vo em viz =
          viz.simulate_waveform sinO time (!sinks.isEmpty) vo em) := by
  refine ⟨fun sl wl i h => ?_, fun sl wl i d h => ?_,
    fun sinO time now sinks lp vo em viz hs hidle => ?_⟩
  · exact lt_of_le_of_lt (min_le_right _ _) (Nat.sub_lt h (by norm_num))
  · exact Nat.mod_lt _ h
  · unfold WaveformVisualizer.update
    rw [hidle, hs]
    simp

/-- C10 witness: a 3-sample ring with 100 bins, and a fresh empty-ring
visualizer dispatching to the synthetic fallback. -/
theorem sample_ring_indices_in_bounds_witness :
    sampleIdx 3 100 5 < 3 ∧
    reverbIdx 3 100 5 (6/100) < 3 ∧
    WaveformVisualizer.update sinZero 0 0 [] (some 0) false EffectManager.new vizEx =
      vizEx.simulate_waveform sinZero 0 (!List.isEmpty ([] : List Session)) false
        EffectManager.new :=
  ⟨sample_ring_indices_in_bounds.1 3 100 5 (by norm_num),
   sample_ring_indices_in_bounds.2.1 3 100 5 (6/100) (by norm_num),
   sample_ring_indices_in_bounds.2.2 sinZero 0 0 [] (some 0) false
     EffectManager.new vizEx rfl (by simp [idleCond])⟩
